import Mathlib

/-!
Verification of the ORBIT-SEC security-scan pipeline.

This file is a shallow embedding of the pipeline's pure cores:
the scanner output normalizers (`Scanner.run_trivy`, `Scanner.run_gitleaks`
in `orbit-sec.py`, `parse_trivy_sarif` and `parse_gitleaks_json` in
`dashboard/artifact_parser.py`), the result store's `save_results`, the
latest-scan severity aggregation of `dashboard/app.py`, and the remediation
engine (`fix_vulnerability`, `fix_all_vulnerabilities` in `dashboard/app.py`).

Python strings are sequences of code points, modelled as `List Char`;
JSON `.get(key, default)` access is modelled as `Option` plus `getD`;
the filesystem touched by the remediation engine is a map from paths to
file contents; fallible operations return explicit outcome values.
-/

/-- Characters of a Python `str` used for file contents and textual surgery;
Python strings are sequences of code points, so `List Char` models them
faithfully (slicing, concatenation and membership are per code point). -/
abbrev Str := List Char

/-- Model of Python `s.lower()` as exercised by the pipeline (ASCII level
names such as `"error"`, `"Warning"`). -/
def strLower (s : String) : String := String.mk (s.toList.map Char.toLower)

/-- Model of Python `s.upper()` as exercised by the pipeline. -/
def strUpper (s : String) : String := String.mk (s.toList.map Char.toUpper)

/-- Canonical normalized record built by the scanner adapters in
`orbit-sec.py`.  The two version keys are present only in the dicts built by
the dependency parser, matching the Python dicts (`save_results` reads them
with `.get(key, "")`). -/
structure Finding where
  scan_type : String
  severity : String
  package : String
  vulnerability : String
  description : String
  file : String
  line : Option Nat
  installed_version : Option String := none
  fixed_version : Option String := none
deriving DecidableEq

/-- One entry of a Trivy JSON `Vulnerabilities` array, with exactly the keys
`Scanner.run_trivy` reads (each read via `.get` with a default). -/
structure TrivyVuln where
  Severity : Option String
  PkgName : Option String
  VulnerabilityID : Option String
  Title : Option String
  FixedVersion : Option String
  InstalledVersion : Option String
deriving DecidableEq

/-- One entry of the Trivy JSON `Results` array. -/
structure TrivyResult where
  Target : Option String
  Vulnerabilities : Option (List TrivyVuln)
deriving DecidableEq

/-- The top-level Trivy JSON object (`data.get("Results", [])`). -/
structure TrivyData where
  Results : Option (List TrivyResult)
deriving DecidableEq

/-- The dict appended for one vulnerability entry in `Scanner.run_trivy`
(`orbit-sec.py` lines 96-106). -/
def trivyFinding (res : TrivyResult) (vuln : TrivyVuln) : Finding :=
  { scan_type := "dependency"
    severity := vuln.Severity.getD "UNKNOWN"
    package := vuln.PkgName.getD "unknown"
    vulnerability := vuln.VulnerabilityID.getD ""
    description := vuln.Title.getD ""
    file := res.Target.getD ""
    line := none
    installed_version := some (vuln.InstalledVersion.getD "")
    fixed_version := some (vuln.FixedVersion.getD "") }

/-- The nested loop of `Scanner.run_trivy` (`orbit-sec.py` lines 90-106):
for each result group, for each vulnerability entry, append one dict. -/
def run_trivy_parse (d : TrivyData) : List Finding :=
  (d.Results.getD []).flatMap fun res =>
    (res.Vulnerabilities.getD []).map (trivyFinding res)

/-- The (result group, vulnerability entry) pairs visited by the nested loop
of `Scanner.run_trivy`, in visiting order. -/
def trivyEntries (d : TrivyData) : List (TrivyResult × TrivyVuln) :=
  (d.Results.getD []).flatMap fun res =>
    (res.Vulnerabilities.getD []).map fun vuln => (res, vuln)

/-- One Gitleaks leak record, with exactly the keys the two secret parsers
read (each read via `.get` with a default). -/
structure GitleaksLeak where
  RuleID : Option String
  Description : Option String
  Secret : Option String
  File : Option String
  StartLine : Option Nat
  Match : Option String
deriving DecidableEq

/-- The loop of `Scanner.run_gitleaks` (`orbit-sec.py` lines 140-150): one
dict per leak record; the secret text is sliced to its first 20 code points
(`secret.get('Secret', '')[:20]`) before being embedded. -/
def run_gitleaks_parse (data : List GitleaksLeak) : List Finding :=
  data.map fun secret =>
    { scan_type := "secret"
      severity := "CRITICAL"
      package := secret.RuleID.getD ""
      vulnerability := secret.Description.getD "Secret detected"
      description :=
        "Secret found: " ++ String.mk ((secret.Secret.getD "").toList.take 20) ++ "..."
      file := secret.File.getD ""
      line := some (secret.StartLine.getD 0) }

/-- One finding dict built by `parse_gitleaks_json` in
`dashboard/artifact_parser.py`; the Python dict key `type` is a reserved Lean
keyword and is embedded here as `ftype`. -/
structure GLFinding where
  severity : String
  ftype : String
  file : String
  line : Nat
  description : String
deriving DecidableEq

/-- The dict returned by `parse_gitleaks_json`. -/
structure GLReport where
  critical : Nat
  findings : List GLFinding
deriving DecidableEq

/-- `parse_gitleaks_json` (`dashboard/artifact_parser.py` lines 63-84): one
finding per leak with severity `CRITICAL`, a description embedding the leak's
`Match` text in full, and the returned list truncated to the first 5. -/
def parse_gitleaks_json (data : List GitleaksLeak) : GLReport :=
  let findings := data.map fun leak =>
    { severity := "CRITICAL"
      ftype := leak.Description.getD "Secret Detected"
      file := leak.File.getD "unknown"
      line := leak.StartLine.getD 0
      description := (leak.Match.getD "Secret") ++ " detected" : GLFinding }
  { critical := findings.length, findings := findings.take 5 }

/-- One row of the `scans` relation (the id is assigned by the store). -/
structure ScanRow where
  target : String
  timestamp : String
  status : String
deriving DecidableEq

/-- `Scanner.save_results` (`orbit-sec.py` lines 165-191): derives the run
status from the total finding count and persists the scan row together with
all finding rows. -/
def save_results (target timestamp : String)
    (trivy_vulns gitleaks_vulns : List Finding) : ScanRow × List Finding :=
  let total_vulns := trivy_vulns.length + gitleaks_vulns.length
  let status := if total_vulns > 0 then "FAILED" else "PASSED"
  ({ target := target, timestamp := timestamp, status := status },
   trivy_vulns ++ gitleaks_vulns)

/-- Helper: mapping a projection over the nested result/vulnerability loop
agrees with mapping the corresponding per-entry function over the flat list
of visited (group, entry) pairs. -/
theorem bind_map_proj {α β γ δ : Type _} (l : List α) (vs : α → List β)
    (mk : α → β → γ) (f : γ → δ) (g : α → β → δ)
    (h : ∀ a b, f (mk a b) = g a b) :
    (l.flatMap fun a => (vs a).map (mk a)).map f
      = (l.flatMap fun a => (vs a).map fun b => (a, b)).map fun p => g p.1 p.2 := by
  induction l with
  | nil => rfl
  | cons a t ih =>
    simp only [List.flatMap_cons, List.map_append, List.map_map]
    refine congrArg₂ (· ++ ·) ?_ ?_
    · exact List.map_congr_left fun b _ => h a b
    · simpa [List.map_map] using ih

/-- C3 (amended): every entry of every result group's vulnerability array
yields exactly one Finding with `scan_type = "dependency"`, severity equal to
the tool-reported severity string taken verbatim (default `"UNKNOWN"` when
the key is absent; the parser performs no uppercasing), and no line field. -/
theorem trivy_json_findings (d : TrivyData) :
    (run_trivy_parse d).length = (trivyEntries d).length
    ∧ (run_trivy_parse d).map Finding.severity
        = (trivyEntries d).map (fun rv => rv.2.Severity.getD "UNKNOWN")
    ∧ (run_trivy_parse d).map Finding.scan_type
        = (trivyEntries d).map (fun _ => "dependency")
    ∧ (run_trivy_parse d).map Finding.line
        = (trivyEntries d).map (fun _ => (none : Option Nat)) := by
  have hsev := bind_map_proj (d.Results.getD []) (fun res => res.Vulnerabilities.getD [])
    trivyFinding Finding.severity (fun _ vuln => vuln.Severity.getD "UNKNOWN")
    (fun _ _ => rfl)
  have hty := bind_map_proj (d.Results.getD []) (fun res => res.Vulnerabilities.getD [])
    trivyFinding Finding.scan_type (fun _ _ => "dependency") (fun _ _ => rfl)
  have hline := bind_map_proj (d.Results.getD []) (fun res => res.Vulnerabilities.getD [])
    trivyFinding Finding.line (fun _ _ => (none : Option Nat)) (fun _ _ => rfl)
  refine ⟨?_, hsev, hty, hline⟩
  have := congrArg List.length hsev
  simpa [run_trivy_parse, trivyEntries] using this

/-- A (valid) Trivy vulnerability entry whose severity string is lowercase. -/
def c3Vuln : TrivyVuln :=
  { Severity := some "high", PkgName := some "flask",
    VulnerabilityID := some "CVE-2023-1", Title := some "flask vuln",
    FixedVersion := some "2.3.2", InstalledVersion := some "2.0.1" }

/-- A Trivy JSON input whose (valid) severity string is lowercase. -/
def c3Data : TrivyData :=
  { Results := some [{ Target := some "requirements.txt",
                       Vulnerabilities := some [c3Vuln] }] }

/-- C3 counterexample: the dependency parser does not uppercase the
tool-reported severity: an entry reporting `"high"` yields a Finding whose
severity is `"high"`, not `"HIGH"`. -/
theorem trivy_severity_not_uppercased_cex :
    (run_trivy_parse c3Data).map Finding.severity = ["high"]
    ∧ strUpper "high" = "HIGH"
    ∧ ("high" : String) ≠ "HIGH" :=
  ⟨rfl, by decide, by decide⟩

/-- C4: the saved ScanRun's status is `"FAILED"` iff the persisted finding
count is positive and `"PASSED"` iff it is zero; in particular scanners that
parse valid output with zero vulnerability entries yield a `"PASSED"` run
with zero persisted Findings. -/
theorem save_results_status_iff (target timestamp : String)
    (trivy_vulns gitleaks_vulns : List Finding) :
    ((save_results target timestamp trivy_vulns gitleaks_vulns).1.status = "FAILED"
        ↔ 0 < (save_results target timestamp trivy_vulns gitleaks_vulns).2.length)
    ∧ ((save_results target timestamp trivy_vulns gitleaks_vulns).1.status = "PASSED"
        ↔ (save_results target timestamp trivy_vulns gitleaks_vulns).2.length = 0)
    ∧ (save_results target timestamp
        (run_trivy_parse { Results := some [{ Target := some "app", Vulnerabilities := some [] }] })
        (run_gitleaks_parse [])).1.status = "PASSED"
    ∧ (save_results target timestamp
        (run_trivy_parse { Results := some [{ Target := some "app", Vulnerabilities := some [] }] })
        (run_gitleaks_parse [])).2 = [] := by
  have hlen : (save_results target timestamp trivy_vulns gitleaks_vulns).2.length
      = trivy_vulns.length + gitleaks_vulns.length := by
    simp [save_results]
  have hstat : (save_results target timestamp trivy_vulns gitleaks_vulns).1.status
      = if 0 < trivy_vulns.length + gitleaks_vulns.length then "FAILED" else "PASSED" := rfl
  refine ⟨?_, ?_, rfl, rfl⟩ <;> rw [hstat, hlen] <;>
    by_cases h : 0 < trivy_vulns.length + gitleaks_vulns.length
  · rw [if_pos h]
    exact ⟨fun _ => h, fun _ => rfl⟩
  · rw [if_neg h]
    exact ⟨fun hc => absurd hc (by decide), fun hp => absurd h (by omega)⟩
  · rw [if_pos h]
    exact ⟨fun hc => absurd hc (by decide), fun h0 => absurd h (by omega)⟩
  · rw [if_neg h]
    exact ⟨fun _ => by omega, fun _ => rfl⟩

/-- C2 (amended): in `Scanner.run_gitleaks` every leak entry yields exactly
one Finding with severity `"CRITICAL"` whose description embeds at most the
first 20 code points of the raw `Secret` text followed by the `"..."`
truncation marker; `parse_gitleaks_json` also forces severity `"CRITICAL"`
per leak, but embeds the leak's `Match` text in full (untruncated) in the
description and truncates the returned finding list to the first 5. -/
theorem gitleaks_secret_findings (leaks : List GitleaksLeak) :
    (run_gitleaks_parse leaks).length = leaks.length
    ∧ (run_gitleaks_parse leaks).map Finding.severity = (leaks.map fun _ => "CRITICAL")
    ∧ (run_gitleaks_parse leaks).map Finding.description
        = (leaks.map fun secret =>
            "Secret found: " ++ String.mk ((secret.Secret.getD "").toList.take 20) ++ "...")
    ∧ (∀ s : String, (String.mk (s.toList.take 20)).length ≤ 20)
    ∧ (parse_gitleaks_json leaks).findings.length = min 5 leaks.length
    ∧ (parse_gitleaks_json leaks).findings.map GLFinding.severity
        = (leaks.map fun _ => "CRITICAL").take 5
    ∧ (parse_gitleaks_json leaks).findings.map GLFinding.description
        = (leaks.map fun leak => (leak.Match.getD "Secret") ++ " detected").take 5 := by
  refine ⟨?_, ?_, ?_, ?_, ?_, ?_, ?_⟩
  · simp [run_gitleaks_parse]
  · simp only [run_gitleaks_parse, List.map_map]; rfl
  · simp only [run_gitleaks_parse, List.map_map]; rfl
  · intro s
    have h : (String.mk (s.toList.take 20)).length = (s.toList.take 20).length := rfl
    rw [h, List.length_take]
    omega
  · simp [parse_gitleaks_json, List.length_take, List.length_map]
  · simp only [parse_gitleaks_json, List.map_take, List.map_map]; rfl
  · simp only [parse_gitleaks_json, List.map_take, List.map_map]; rfl

/-- A Gitleaks leak whose matched secret text is 30 code points long. -/
def c2Leak : GitleaksLeak :=
  { RuleID := some "stripe-access-token", Description := some "Stripe Key",
    Secret := some "sk_live_0123456789abcdefghijkl",
    File := some "app.py", StartLine := some 12,
    Match := some "sk_live_0123456789abcdefghijkl" }

/-- C2 counterexample: `parse_gitleaks_json` embeds the full raw matched
secret text in the finding description: a 30-code-point match appears in the
description untruncated (more than the first 20 characters plus marker). -/
theorem gitleaks_match_untruncated_cex :
    (parse_gitleaks_json [c2Leak]).findings.map GLFinding.description
      = ["sk_live_0123456789abcdefghijkl detected"]
    ∧ ("sk_live_0123456789abcdefghijkl" : String).length = 30 := by
  refine ⟨by decide, by decide⟩

/-- SARIF level mapping of `parse_trivy_sarif`
(`dashboard/artifact_parser.py` lines 25-31): lower the reported level, remap
the three known names, and keep any other value as it is. -/
def sarifLevel (lvl : Option String) : String :=
  if strLower (lvl.getD "none") = "error" then "high"
  else if strLower (lvl.getD "none") = "warning" then "medium"
  else if strLower (lvl.getD "none") = "note" then "low"
  else strLower (lvl.getD "none")

/-- One SARIF result, with the fields `parse_trivy_sarif` reads;
`locationUris` holds, for each entry of the result's `locations` array, the
`physicalLocation.artifactLocation.uri` value extracted with the Python
`.get(..., {}) / .get("uri", "")` defaults. -/
structure SarifResult where
  level : Option String
  ruleId : Option String
  messageText : Option String
  locationUris : List String
deriving DecidableEq

/-- One SARIF run (`run.get("results", [])`). -/
structure SarifRun where
  results : Option (List SarifResult)
deriving DecidableEq

/-- The top-level SARIF object (`sarif_data.get("runs", [])`). -/
structure SarifData where
  runs : Option (List SarifRun)
deriving DecidableEq

/-- One finding dict built by `parse_trivy_sarif`. -/
structure SarifFinding where
  severity : String
  cve : String
  package : String
  description : String
  fixed_version : String
deriving DecidableEq

/-- The dict returned by `parse_trivy_sarif`. -/
structure SarifReport where
  critical : Nat
  high : Nat
  medium : Nat
  low : Nat
  findings : List SarifFinding
deriving DecidableEq

/-- The results visited by the nested run/result loop of
`parse_trivy_sarif`, in visiting order. -/
def sarifResults (d : SarifData) : List SarifResult :=
  (d.runs.getD []).flatMap fun run => run.results.getD []

/-- The finding dict appended for one SARIF result
(`dashboard/artifact_parser.py` lines 46-52). -/
def sarifFinding (r : SarifResult) : SarifFinding :=
  { severity := strUpper (sarifLevel r.level)
    cve := r.ruleId.getD ""
    package := (r.locationUris.head?).getD ""
    description := r.messageText.getD "No description"
    fixed_version := "See report for details" }

/-- `parse_trivy_sarif` (`dashboard/artifact_parser.py` lines 11-60): the
four returned counts read the fixed keys of the severity-count dict (which
starts at zero for them and is incremented at the mapped level), and the
returned findings are truncated to the first 5. -/
def parse_trivy_sarif (d : SarifData) : SarifReport :=
  { critical := ((sarifResults d).filter fun r => sarifLevel r.level = "critical").length
    high := ((sarifResults d).filter fun r => sarifLevel r.level = "high").length
    medium := ((sarifResults d).filter fun r => sarifLevel r.level = "medium").length
    low := ((sarifResults d).filter fun r => sarifLevel r.level = "low").length
    findings := ((sarifResults d).map sarifFinding).take 5 }

/-- A SARIF result whose level is `"critical"`. -/
def c1Result : SarifResult :=
  { level := some "critical", ruleId := some "CVE-2024-0001",
    messageText := some "bad dependency", locationUris := ["requirements.txt"] }

/-- A SARIF input with a single result whose level is `"critical"`. -/
def c1Data : SarifData :=
  { runs := some [{ results := some [c1Result] }] }

/-- C1 counterexample: the SARIF parser does not map unknown level values to
LOW: a result whose level is `"critical"` passes through the mapping
unchanged and yields a finding with severity `"CRITICAL"`. -/
theorem sarif_critical_passthrough_cex :
    (parse_trivy_sarif c1Data).findings.map SarifFinding.severity = ["CRITICAL"]
    ∧ ("CRITICAL" : String) ≠ "LOW" :=
  ⟨rfl, by decide⟩

/-- Modelled from the amended claim wording: `error→HIGH`, `warning→MEDIUM`,
`note→LOW`, and any other (lowered) level value is passed through uppercased
(an absent level defaults to `"none"`, hence `"NONE"`). -/
def sarifSpecSeverity (lvl : Option String) : String :=
  if strLower (lvl.getD "none") = "error" then "HIGH"
  else if strLower (lvl.getD "none") = "warning" then "MEDIUM"
  else if strLower (lvl.getD "none") = "note" then "LOW"
  else strUpper (strLower (lvl.getD "none"))

/-- The parser's severity field agrees pointwise with the amended mapping. -/
theorem sarif_severity_eq (lvl : Option String) :
    strUpper (sarifLevel lvl) = sarifSpecSeverity lvl := by
  unfold sarifLevel sarifSpecSeverity
  split_ifs <;> first | decide | rfl

/-- C1 (amended): the SARIF parser maps each result's level by the pure
function `error→HIGH`, `warning→MEDIUM`, `note→LOW`, and passes any other
level value through uppercased (so a level of `"critical"` yields severity
`CRITICAL`); the returned findings are the first 5 results so mapped. -/
theorem sarif_severity_passthrough (d : SarifData) :
    (parse_trivy_sarif d).findings.map SarifFinding.severity
      = ((sarifResults d).map fun r => sarifSpecSeverity r.level).take 5
    ∧ sarifSpecSeverity (some "error") = "HIGH"
    ∧ sarifSpecSeverity (some "warning") = "MEDIUM"
    ∧ sarifSpecSeverity (some "note") = "LOW" := by
  refine ⟨?_, by decide, by decide, by decide⟩
  have hmap : (fun r => (sarifFinding r).severity)
      = fun r : SarifResult => sarifSpecSeverity r.level :=
    funext fun r => sarif_severity_eq r.level
  calc (parse_trivy_sarif d).findings.map SarifFinding.severity
      = (((sarifResults d).map sarifFinding).take 5).map SarifFinding.severity := rfl
    _ = ((sarifResults d).map fun r => (sarifFinding r).severity).take 5 := by
        rw [List.map_take, List.map_map]; rfl
    _ = ((sarifResults d).map fun r => sarifSpecSeverity r.level).take 5 := by rw [hmap]

/-- Python `content.split` at newline characters, as induced by
`re.MULTILINE` matching: the segments of a string between `'\n'`
separators (`splitNl s` is never empty; a trailing newline yields a final
empty segment, as in Python). -/
def splitNl : Str → List Str
  | [] => [[]]
  | c :: rest =>
    match splitNl rest with
    | [] => [[]]
    | l :: ls => if c = '\n' then [] :: l :: ls else (c :: l) :: ls

/-- Inverse of `splitNl`: interleave the segments with `'\n'`. -/
def joinNl : List Str → Str
  | [] => []
  | [l] => l
  | l :: ls => l ++ '\n' :: joinNl ls

/-- Python's substring containment test `pat in s` (per code point). -/
def containsSub : Str → Str → Bool
  | [], pat => pat.isEmpty
  | c :: rest, pat => pat.isPrefixOf (c :: rest) || containsSub rest pat

/-- Scanner for `replaceAll`: at skip count 0 it looks for `old` at the
current position, emits `nw` and skips the match when found; a positive skip
count copies nothing and consumes the remaining characters of a match.  The
guard `old ≠ []` keeps the definition total; the pipeline only ever replaces
patterns containing `"=="`, which are never empty. -/
def replaceAllGo (old nw : Str) : Nat → Str → Str
  | _, [] => []
  | 0, c :: rest =>
    if old ≠ [] ∧ old.isPrefixOf (c :: rest)
    then nw ++ replaceAllGo old nw (old.length - 1) rest
    else c :: replaceAllGo old nw 0 rest
  | Nat.succ k, _ :: rest => replaceAllGo old nw k rest

/-- Python `s.replace(old, nw)`: replace every non-overlapping occurrence of
`old`, scanning left to right. -/
def replaceAll (s old nw : Str) : Str := replaceAllGo old nw 0 s

/-- Helper for `pyDropSuffix`: scan the reversed remainder of a file name
for its last dot (`str.rfind('.')`); `none` when there is no dot, or when
the last dot is the first character of the name (CPython's `0 < i` check in
`PurePath.suffix`). -/
def suffixStemRev : Str → Option Str
  | [] => none
  | '.' :: rest => if rest = [] then none else some rest
  | _ :: rest => suffixStemRev rest

/-- The file name with its `pathlib` suffix removed (identity when the name
has no suffix), per CPython's `PurePath.suffix` rule `0 < i < len(name)-1`
on the position of the last dot. -/
def pyDropSuffix (name : Str) : Str :=
  match name.reverse with
  | [] => []
  | c :: restRev =>
    if c = '.' then name
    else
      match suffixStemRev restRev with
      | some stemRev => stemRev.reverse
      | none => name

/-- `target_file.with_suffix('.txt.backup')` (`dashboard/app.py` lines 196
and 281): replace the last component's suffix with `.txt.backup`. -/
def backupPathC (p : Str) : Str :=
  ((p.reverse.dropWhile fun c => c ≠ '/').reverse)
    ++ pyDropSuffix ((p.reverse.takeWhile fun c => c ≠ '/').reverse)
    ++ ".txt.backup".toList

/-- The fallback branch of `fix_vulnerability` (`dashboard/app.py` lines
211-215): `re.sub(rf'^{re.escape(package)}==.*$', new_line, content,
flags=re.MULTILINE)`.  `re.escape` makes the package name match literally,
and with `re.MULTILINE` the `^`/`$` anchors together with `.` (which does
not match a newline) bound every match to one whole line, so a line is
rewritten iff it starts with `package==`; this per-line model is faithful
for package names that do not contain a newline. -/
def fallbackSub (package fixed_version content : Str) : Str :=
  joinNl ((splitNl content).map fun line =>
    if (package ++ '=' :: '=' :: []).isPrefixOf line
    then package ++ '=' :: '=' :: fixed_version
    else line)

/-- The content rewrite of `fix_vulnerability` (`dashboard/app.py` lines
206-220): with a non-empty installed version, replace every occurrence of
the substring `package==installed_version` (via `str.replace`) when it
occurs anywhere in the content; with an unknown (empty) installed version,
apply the anchored per-line fallback substitution. -/
def applyFix (content package fixed_version installed_version : Str) : Str :=
  if installed_version = [] then fallbackSub package fixed_version content
  else
    if containsSub content (package ++ '=' :: '=' :: installed_version)
    then replaceAll content (package ++ '=' :: '=' :: installed_version)
                    (package ++ '=' :: '=' :: fixed_version)
    else content

/-- The filesystem as seen by the remediation engine: a map from paths to
file contents. -/
abbrev FS := Str → Option Str

/-- Writing one file. -/
def fsSet (fs : FS) (p : Str) (c : Str) : FS :=
  fun q => if q = p then some c else fs q

/-- The columns of one stored vulnerability row read by the single-finding
fix (`SELECT package, fixed_version, file, installed_version`). -/
structure VulnRecord where
  package : Str
  fixed_version : Str
  file : Str
  installed_version : Str
deriving DecidableEq

/-- The discriminated outcome of the single-finding fix (the JSON payloads
returned by `fix_vulnerability`). -/
inductive FixOutcome where
  | noFixVersion : FixOutcome
  | fileNotFound (file : Str) : FixOutcome
  | ok (package old_version new_version file backup : Str) : FixOutcome
deriving DecidableEq

/-- `fix_vulnerability` (`dashboard/app.py` lines 184-232), from the looked
up row onward: refuse when no fixed version is recorded, report a missing
file without touching anything, and otherwise write the backup (with the
pre-mutation content) followed by the rewritten target.  Besides the final
filesystem and outcome it returns the list of file writes in program order,
so that write ordering is part of the model. -/
def fix_vulnerability (fs : FS) (v : VulnRecord) : FS × FixOutcome × List (Str × Str) :=
  if v.fixed_version = [] then (fs, FixOutcome.noFixVersion, [])
  else
    match fs v.file with
    | none => (fs, FixOutcome.fileNotFound v.file, [])
    | some content =>
      (fsSet (fsSet fs (backupPathC v.file) content) v.file
         (applyFix content v.package v.fixed_version v.installed_version),
       FixOutcome.ok v.package v.installed_version v.fixed_version v.file (backupPathC v.file),
       [(backupPathC v.file, content),
        (v.file, applyFix content v.package v.fixed_version v.installed_version)])

/-- Two strings without `'='` followed by the `"=="` marker can only be
prefix-related when the strings are equal. -/
theorem eqeq_marker_inj (p : Str) : ∀ (q t : Str), '=' ∉ p → '=' ∉ q →
    (p ++ '=' :: '=' :: []) <+: (q ++ '=' :: '=' :: t) → p = q := by
  induction p with
  | nil =>
    intro q t _ hq hpre
    cases q with
    | nil => rfl
    | cons b q' =>
      rw [List.nil_append, List.cons_append] at hpre
      have hb := (List.cons_prefix_cons.mp hpre).1
      exact absurd (hb ▸ List.mem_cons_self b q') hq
  | cons a p' ih =>
    intro q t hp hq hpre
    cases q with
    | nil =>
      rw [List.cons_append, List.nil_append] at hpre
      have ha := (List.cons_prefix_cons.mp hpre).1
      exact absurd (ha ▸ List.mem_cons_self a p') (ha ▸ hp)
    | cons b q' =>
      rw [List.cons_append, List.cons_append] at hpre
      obtain ⟨hab, htail⟩ := List.cons_prefix_cons.mp hpre
      have hp' : '=' ∉ p' := fun h => hp (List.mem_cons_of_mem _ h)
      have hq' : '=' ∉ q' := fun h => hq (List.mem_cons_of_mem _ h)
      rw [hab, ih q' t hp' hq' htail]

/-- C7: the unknown-installed-version fallback rewrites exactly whole lines
starting with `package==` (anchored, with the package name matched
literally), so the lines of any distinct package — also one whose name
merely overlaps the target's — are left unchanged: on every line equal to
`q ++ "==" ++ v` for a package name `q ≠ package` the substitution is the
identity. -/
theorem fallback_other_packages_unchanged
    (pkg fixed q v content : Str) (hqp : q ≠ pkg) (hq : '=' ∉ q) (hp : '=' ∉ pkg) :
    fallbackSub pkg fixed content
      = joinNl ((splitNl content).map fun line =>
          if line = q ++ '=' :: '=' :: v then line
          else if (pkg ++ '=' :: '=' :: []).isPrefixOf line
               then pkg ++ '=' :: '=' :: fixed else line) := by
  unfold fallbackSub
  refine congrArg joinNl (List.map_congr_left fun line _ => ?_)
  by_cases hl : line = q ++ '=' :: '=' :: v
  · subst hl
    have hnp : ¬ ((pkg ++ '=' :: '=' :: []).isPrefixOf (q ++ '=' :: '=' :: v) = true) := by
      intro hpre
      exact hqp (eqeq_marker_inj pkg q v hp hq (List.isPrefixOf_iff_prefix.mp hpre)).symm
    rw [if_neg hnp, if_pos rfl]
  · rw [if_neg hl]

/-- Witness for C7 at a concrete overlap: fixing `flask` does not touch the
`mega-flask` line. -/
theorem fallback_other_packages_unchanged_witness :
    ("mega-flask".toList ≠ "flask".toList)
    ∧ ('=' ∉ "mega-flask".toList) ∧ ('=' ∉ "flask".toList)
    ∧ fallbackSub "flask".toList "2.3.2".toList
        ("mega-flask==2.0.1\nflask==2.0.1".toList)
      = joinNl ((splitNl ("mega-flask==2.0.1\nflask==2.0.1".toList)).map fun line =>
          if line = "mega-flask".toList ++ '=' :: '=' :: "2.0.1".toList then line
          else if ("flask".toList ++ '=' :: '=' :: []).isPrefixOf line
               then "flask".toList ++ '=' :: '=' :: "2.3.2".toList else line) :=
  ⟨by decide, by decide, by decide,
   fallback_other_packages_unchanged "flask".toList "2.3.2".toList
     "mega-flask".toList "2.0.1".toList ("mega-flask==2.0.1\nflask==2.0.1".toList)
     (by decide) (by decide) (by decide)⟩

/-- C8 counterexample: the already-fixed check of `fix_vulnerability` is a
substring test, not a line test: in a manifest whose lines are
`flask==2.3.2` (already fixed) and `mega-flask==2.0.1` — so no line equals
`flask==2.0.1` — applying the flask fix still changes the content (it
rewrites the `mega-flask` pin), violating byte-identity. -/
theorem fix_already_fixed_not_idempotent_cex :
    ("flask==2.3.2".toList ∈ splitNl ("flask==2.3.2\nmega-flask==2.0.1".toList))
    ∧ ("flask==2.0.1".toList ∉ splitNl ("flask==2.3.2\nmega-flask==2.0.1".toList))
    ∧ applyFix ("flask==2.3.2\nmega-flask==2.0.1".toList)
        "flask".toList "2.3.2".toList "2.0.1".toList
      = ("flask==2.3.2\nmega-flask==2.3.2".toList)
    ∧ ("flask==2.3.2\nmega-flask==2.3.2".toList : Str)
      ≠ ("flask==2.3.2\nmega-flask==2.0.1".toList) := by
  refine ⟨by decide, by decide, by decide, by decide⟩

/-- C8 (amended): when the substring `package==installed_version` occurs
nowhere in the manifest content (in particular the manifest already carries
the fixed pin), the single-finding fix writes the file back byte-identical
while the backup is refreshed to that same content. -/
theorem fix_idempotent_no_substring (fs : FS) (v : VulnRecord) (content : Str)
    (hfix : v.fixed_version ≠ [])
    (hinst : v.installed_version ≠ [])
    (hfile : fs v.file = some content)
    (hno : containsSub content (v.package ++ '=' :: '=' :: v.installed_version) = false)
    (hbp : backupPathC v.file ≠ v.file) :
    (fix_vulnerability fs v).1 v.file = some content
    ∧ (fix_vulnerability fs v).1 (backupPathC v.file) = some content := by
  have happ : applyFix content v.package v.fixed_version v.installed_version = content := by
    unfold applyFix
    rw [if_neg hinst, if_neg (by simp [hno])]
  simp only [fix_vulnerability, if_neg hfix, hfile, happ]
  constructor
  · simp [fsSet]
  · simp [fsSet, hbp]

/-- The filesystem holding one already-fixed manifest. -/
def fsReq : FS :=
  fun p => if p = "requirements.txt".toList
           then some ("flask==2.3.2\n".toList) else none

/-- The stored flask finding used as concrete input. -/
def vFlask : VulnRecord :=
  { package := "flask".toList, fixed_version := "2.3.2".toList,
    file := "requirements.txt".toList, installed_version := "2.0.1".toList }

/-- Witness for C8 (amended) on a concrete already-fixed manifest. -/
theorem fix_idempotent_no_substring_witness :
    (vFlask.fixed_version ≠ [])
    ∧ (vFlask.installed_version ≠ [])
    ∧ (fsReq vFlask.file = some ("flask==2.3.2\n".toList))
    ∧ (containsSub ("flask==2.3.2\n".toList)
        (vFlask.package ++ '=' :: '=' :: vFlask.installed_version) = false)
    ∧ (backupPathC vFlask.file ≠ vFlask.file)
    ∧ ((fix_vulnerability fsReq vFlask).1 vFlask.file = some ("flask==2.3.2\n".toList)
       ∧ (fix_vulnerability fsReq vFlask).1 (backupPathC vFlask.file)
           = some ("flask==2.3.2\n".toList)) :=
  ⟨by decide, by decide, by decide, by decide, by decide,
   fix_idempotent_no_substring fsReq vFlask ("flask==2.3.2\n".toList)
     (by decide) (by decide) (by decide) (by decide) (by decide)⟩

/-- C9: with a non-empty installed version whose pin occurs in the content,
the single-finding fix is exactly the global substring replacement of
`package==installed_version` by `package==fixed_version` anywhere in the
file (not a whole-line rewrite); concretely, fixing `flask` at `2.0.1`
rewrites the line `mega-flask==2.0.1` to `mega-flask==2.3.2`. -/
theorem fix_substring_replacement :
    (∀ (content pkg fixed inst : Str), inst ≠ [] →
        containsSub content (pkg ++ '=' :: '=' :: inst) = true →
        applyFix content pkg fixed inst
          = replaceAll content (pkg ++ '=' :: '=' :: inst) (pkg ++ '=' :: '=' :: fixed))
    ∧ applyFix ("mega-flask==2.0.1\n".toList)
        "flask".toList "2.3.2".toList "2.0.1".toList
      = ("mega-flask==2.3.2\n".toList) := by
  constructor
  · intro content pkg fixed inst hinst hc
    unfold applyFix
    rw [if_neg hinst, if_pos (by simp [hc])]
  · decide

/-- Witness for the universal part of C9 at the concrete `mega-flask`
overlap input. -/
theorem fix_substring_replacement_witness :
    (("2.0.1".toList : Str) ≠ [])
    ∧ containsSub ("mega-flask==2.0.1\n".toList)
        ("flask".toList ++ '=' :: '=' :: "2.0.1".toList) = true
    ∧ applyFix ("mega-flask==2.0.1\n".toList)
        "flask".toList "2.3.2".toList "2.0.1".toList
      = replaceAll ("mega-flask==2.0.1\n".toList)
          ("flask".toList ++ '=' :: '=' :: "2.0.1".toList)
          ("flask".toList ++ '=' :: '=' :: "2.3.2".toList) :=
  ⟨by decide, by decide,
   fix_substring_replacement.1 ("mega-flask==2.0.1\n".toList)
     "flask".toList "2.3.2".toList "2.0.1".toList (by decide) (by decide)⟩

/-- The columns of one stored vulnerability row read by the bulk fix
(`SELECT id, package, fixed_version, file, installed_version`). -/
structure DBVuln where
  id : Nat
  package : Str
  fixed_version : Str
  file : Str
  installed_version : Str
deriving DecidableEq

/-- The fixable-row query of `fix_all_vulnerabilities` (`dashboard/app.py`
lines 247-250): non-empty fixed version and file matching the SQL pattern
`LIKE '%requirements.txt%'` (substring containment). -/
def fixableFilter (db : List DBVuln) : List DBVuln :=
  db.filter fun v => !v.fixed_version.isEmpty && containsSub v.file ("requirements.txt".toList)

/-- One step of the file grouping (`files_to_fix` dict, `dashboard/app.py`
lines 258-266): append to an existing key's list, or append a new key at the
end (Python dicts preserve insertion order). -/
def insertGroup (acc : List (Str × List DBVuln)) (v : DBVuln) : List (Str × List DBVuln) :=
  match acc with
  | [] => [(v.file, [v])]
  | g :: rest => if g.1 = v.file then (g.1, g.2 ++ [v]) :: rest else g :: insertGroup rest v

/-- Group the fixable rows by file, preserving first-seen key order and
per-key row order. -/
def groupByFile (l : List DBVuln) : List (Str × List DBVuln) := l.foldl insertGroup []

/-- The per-file fix loop of `fix_all_vulnerabilities` (`dashboard/app.py`
lines 286-292): for each fix with a non-empty installed version, replace the
old pin by the new pin (all substring occurrences) and increment the counter
— the counter is incremented whether or not the old pin occurs, and fixes
with an unknown installed version are skipped (no fallback in bulk mode). -/
def applyGroup (content : Str) : List DBVuln → Str × Nat
  | [] => (content, 0)
  | fix :: rest =>
    if fix.installed_version = [] then applyGroup content rest
    else
      let r := applyGroup
        (replaceAll content (fix.package ++ '=' :: '=' :: fix.installed_version)
          (fix.package ++ '=' :: '=' :: fix.fixed_version)) rest
      (r.1, r.2 + 1)

/-- The per-file loop of `fix_all_vulnerabilities` (`dashboard/app.py` lines
271-307): skip a missing file silently (`continue` — no result entry),
otherwise write the backup with the pre-mutation content, apply the group's
fixes, write the target back, and record the entry
`(file, len(fixes), backup name)`; returns the final filesystem, the
accumulated `fixed_count` and the `results` entries in order. -/
def runGroups (fs : FS) : List (Str × List DBVuln) → FS × Nat × List (Str × Nat × Str)
  | [] => (fs, 0, [])
  | g :: rest =>
    match fs g.1 with
    | none => runGroups fs rest
    | some content =>
      let step := runGroups
        (fsSet (fsSet fs (backupPathC g.1) content) g.1 (applyGroup content g.2).1) rest
      (step.1, (applyGroup content g.2).2 + step.2.1,
       (g.1, g.2.length, backupPathC g.1) :: step.2.2)

/-- The discriminated outcome of the bulk fix: either the "No fixable
vulnerabilities found" report or the success payload with `total_fixed` and
the per-file `files_updated` entries. -/
inductive BulkResult where
  | noFixable : BulkResult
  | ok (total_fixed : Nat) (files_updated : List (Str × Nat × Str)) : BulkResult
deriving DecidableEq

/-- `fix_all_vulnerabilities` (`dashboard/app.py` lines 237-313), from the
row query onward. -/
def fix_all_vulnerabilities (fs : FS) (db : List DBVuln) : FS × BulkResult :=
  let vulns := fixableFilter db
  if vulns = [] then (fs, BulkResult.noFixable)
  else
    let r := runGroups fs (groupByFile vulns)
    (r.1, BulkResult.ok r.2.1 r.2.2)

/-- A path never written by a run of groups keeps its content. -/
theorem runGroups_preserve (k : Str) : ∀ (fs : FS) (gs : List (Str × List DBVuln)),
    (∀ g ∈ gs, k ≠ g.1 ∧ k ≠ backupPathC g.1) → (runGroups fs gs).1 k = fs k := by
  intro fs gs
  induction gs generalizing fs with
  | nil => intro _; rfl
  | cons g rest ih =>
    intro h
    have hg := h g (List.mem_cons_self g rest)
    have hr : ∀ g' ∈ rest, k ≠ g'.1 ∧ k ≠ backupPathC g'.1 :=
      fun g' hm => h g' (List.mem_cons_of_mem _ hm)
    cases hf : fs g.1 with
    | none =>
      simp only [runGroups, hf]
      exact ih fs hr
    | some content =>
      simp only [runGroups, hf]
      rw [ih _ hr]
      simp [fsSet, hg.1, hg.2]

/-- `fsSet` never deletes a file. -/
theorem fsSet_isSome (fs : FS) (p c k : Str) (h : (fs k).isSome) :
    ((fsSet fs p c) k).isSome := by
  by_cases hk : k = p <;> simp [fsSet, hk, h]

/-- A run of groups never deletes a file. -/
theorem runGroups_isSome (k : Str) : ∀ (fs : FS) (gs : List (Str × List DBVuln)),
    (fs k).isSome → ((runGroups fs gs).1 k).isSome := by
  intro fs gs
  induction gs generalizing fs with
  | nil => intro h; exact h
  | cons g rest ih =>
    intro h
    cases hf : fs g.1 with
    | none => simp only [runGroups, hf]; exact ih fs h
    | some content =>
      simp only [runGroups, hf]
      exact ih _ (fsSet_isSome _ _ _ _ (fsSet_isSome _ _ _ _ h))

/-- The bulk counter counts exactly the fixes with a non-empty installed
version, independently of the content. -/
theorem applyGroup_count : ∀ (fixes : List DBVuln) (content : Str),
    (applyGroup content fixes).2
      = (fixes.filter fun v => !v.installed_version.isEmpty).length := by
  intro fixes
  induction fixes with
  | nil => intro c; rfl
  | cons f rest ih =>
    intro c
    by_cases hf : f.installed_version = []
    · simp [applyGroup, hf, List.filter_cons, ih]
    · simp [applyGroup, hf, List.filter_cons, ih]

/-- With every group's file present, the accumulated bulk counter is the sum
of the per-group counts. -/
theorem runGroups_count : ∀ (fs : FS) (gs : List (Str × List DBVuln)),
    (∀ g ∈ gs, (fs g.1).isSome) →
    (runGroups fs gs).2.1
      = (gs.map fun g => ((g.2.filter fun v => !v.installed_version.isEmpty).length)).sum := by
  intro fs gs
  induction gs generalizing fs with
  | nil => intro _; rfl
  | cons g rest ih =>
    intro h
    obtain ⟨content, hf⟩ := Option.isSome_iff_exists.mp (h g (List.mem_cons_self g rest))
    have hrest : ∀ g' ∈ rest,
        ((fsSet (fsSet fs (backupPathC g.1) content) g.1 (applyGroup content g.2).1) g'.1).isSome :=
      fun g' hm => fsSet_isSome _ _ _ _ (fsSet_isSome _ _ _ _ (h g' (List.mem_cons_of_mem _ hm)))
    simp only [runGroups, hf]
    rw [ih _ hrest, applyGroup_count]
    simp

/-- With every group's file present, the bulk result entries list one entry
per group: the file, the number of fixes of its group, and the backup
name. -/
theorem runGroups_entries : ∀ (fs : FS) (gs : List (Str × List DBVuln)),
    (∀ g ∈ gs, (fs g.1).isSome) →
    (runGroups fs gs).2.2 = gs.map fun g => (g.1, g.2.length, backupPathC g.1) := by
  intro fs gs
  induction gs generalizing fs with
  | nil => intro _; rfl
  | cons g rest ih =>
    intro h
    obtain ⟨content, hf⟩ := Option.isSome_iff_exists.mp (h g (List.mem_cons_self g rest))
    have hrest : ∀ g' ∈ rest,
        ((fsSet (fsSet fs (backupPathC g.1) content) g.1 (applyGroup content g.2).1) g'.1).isSome :=
      fun g' hm => fsSet_isSome _ _ _ _ (fsSet_isSome _ _ _ _ (h g' (List.mem_cons_of_mem _ hm)))
    simp only [runGroups, hf]
    rw [ih _ hrest]
    simp

/-- Inserting a row into the grouping adds its filter-count to the grouped
total. -/
theorem insertGroup_sum (p : DBVuln → Bool) :
    ∀ (acc : List (Str × List DBVuln)) (v : DBVuln),
    ((insertGroup acc v).map fun g => (g.2.filter p).length).sum
      = ((acc.map fun g => (g.2.filter p).length).sum) + (if p v then 1 else 0) := by
  intro acc v
  induction acc with
  | nil =>
    cases hv : p v <;> simp [insertGroup, List.filter_cons, hv]
  | cons g rest ih =>
    by_cases hg : g.1 = v.file
    · cases hv : p v <;>
        (simp [insertGroup, hg, List.filter_append, List.filter_cons, hv]; try omega)
    · simp [insertGroup, hg, ih]
      omega

/-- Grouping by file preserves filter-counts: the grouped per-file counts
sum to the count over the ungrouped rows. -/
theorem groupByFile_countP (p : DBVuln → Bool) (l : List DBVuln) :
    ((groupByFile l).map fun g => (g.2.filter p).length).sum = (l.filter p).length := by
  suffices h : ∀ acc : List (Str × List DBVuln),
      ((l.foldl insertGroup acc).map fun g => (g.2.filter p).length).sum
        = ((acc.map fun g => (g.2.filter p).length).sum) + (l.filter p).length by
    simpa [groupByFile] using h []
  induction l with
  | nil => intro acc; simp
  | cons v rest ih =>
    intro acc
    simp only [List.foldl_cons]
    rw [ih (insertGroup acc v), insertGroup_sum]
    cases hv : p v <;> (simp [List.filter_cons, hv]; try omega)

/-- Backup safety of the per-file bulk loop: as long as the target files are
pairwise distinct, the backup names are pairwise distinct, and no backup
name collides with any target, the final filesystem holds, at each processed
file's backup path, that file's pre-run content. -/
theorem runGroups_backup : ∀ (fs : FS) (gs : List (Str × List DBVuln)),
    List.Pairwise (fun g g' : Str × List DBVuln =>
      g.1 ≠ g'.1 ∧ backupPathC g.1 ≠ backupPathC g'.1) gs →
    (∀ g₁ ∈ gs, ∀ g₂ ∈ gs, backupPathC g₁.1 ≠ g₂.1) →
    ∀ g ∈ gs, ∀ c, fs g.1 = some c →
      (runGroups fs gs).1 (backupPathC g.1) = some c := by
  intro fs gs
  induction gs generalizing fs with
  | nil => intro _ _ g hg; exact absurd hg (List.not_mem_nil g)
  | cons g0 rest ih =>
    intro hpw hbt g hg c hc
    obtain ⟨hhead, htail⟩ := List.pairwise_cons.mp hpw
    have hbt' : ∀ g₁ ∈ rest, ∀ g₂ ∈ rest, backupPathC g₁.1 ≠ g₂.1 :=
      fun g₁ h₁ g₂ h₂ =>
        hbt g₁ (List.mem_cons_of_mem _ h₁) g₂ (List.mem_cons_of_mem _ h₂)
    rcases List.mem_cons.mp hg with rfl | hgrest
    · simp only [runGroups, hc]
      have hpres : (runGroups
          (fsSet (fsSet fs (backupPathC g.1) c) g.1 (applyGroup c g.2).1) rest).1
            (backupPathC g.1)
          = (fsSet (fsSet fs (backupPathC g.1) c) g.1 (applyGroup c g.2).1)
              (backupPathC g.1) := by
        refine runGroups_preserve _ _ rest fun g' hm => ?_
        exact ⟨hbt g (List.mem_cons_self g rest) g' (List.mem_cons_of_mem _ hm),
               (hhead g' hm).2⟩
      rw [hpres]
      have hbp_ne : backupPathC g.1 ≠ g.1 :=
        hbt g (List.mem_cons_self g rest) g (List.mem_cons_self g rest)
      simp [fsSet, hbp_ne]
    · cases hf : fs g0.1 with
      | none =>
        simp only [runGroups, hf]
        exact ih fs htail hbt' g hgrest c hc
      | some content =>
        simp only [runGroups, hf]
        refine ih _ htail hbt' g hgrest c ?_
        have h1 : g.1 ≠ g0.1 := fun h => (hhead g hgrest).1 h.symm
        have h2 : g.1 ≠ backupPathC g0.1 :=
          fun h => hbt g0 (List.mem_cons_self g0 rest) g (List.mem_cons_of_mem _ hgrest) h.symm
        simp [fsSet, h1, h2, hc]

/-- C5 (amended): a single-finding fix on an existing manifest writes the
backup first — it is the head of the write list — with exactly the
pre-mutation content, and then rewrites the target; on a missing target it
mutates nothing and reports the file-not-found condition.  A bulk fix gives
the same backup guarantee for every processed file (under non-collision of
the involved target and backup paths), but it skips a missing file silently,
reporting no missing-file condition. -/
theorem remediation_backup_safety :
    (∀ (fs : FS) (v : VulnRecord) (content : Str),
       v.fixed_version ≠ [] → fs v.file = some content →
       backupPathC v.file ≠ v.file →
         ((fix_vulnerability fs v).1 (backupPathC v.file) = some content
          ∧ (fix_vulnerability fs v).2.2.head? = some (backupPathC v.file, content)
          ∧ (fix_vulnerability fs v).1 v.file
              = some (applyFix content v.package v.fixed_version v.installed_version)))
    ∧ (∀ (fs : FS) (v : VulnRecord), v.fixed_version ≠ [] → fs v.file = none →
         (fix_vulnerability fs v).1 = fs
         ∧ (fix_vulnerability fs v).2.1 = FixOutcome.fileNotFound v.file)
    ∧ (∀ (fs : FS) (db : List DBVuln),
         List.Pairwise (fun g g' : Str × List DBVuln =>
           g.1 ≠ g'.1 ∧ backupPathC g.1 ≠ backupPathC g'.1) (groupByFile (fixableFilter db)) →
         (∀ g₁ ∈ groupByFile (fixableFilter db), ∀ g₂ ∈ groupByFile (fixableFilter db),
            backupPathC g₁.1 ≠ g₂.1) →
         ∀ g ∈ groupByFile (fixableFilter db), ∀ c, fs g.1 = some c →
           (fix_all_vulnerabilities fs db).1 (backupPathC g.1) = some c) := by
  refine ⟨?_, ?_, ?_⟩
  · intro fs v content hfix hfile hbp
    simp only [fix_vulnerability, if_neg hfix, hfile]
    refine ⟨?_, rfl, ?_⟩
    · simp [fsSet, hbp]
    · simp [fsSet]
  · intro fs v hfix hnone
    simp [fix_vulnerability, if_neg hfix, hnone]
  · intro fs db hpw hbt g hg c hc
    by_cases hemp : fixableFilter db = []
    · rw [hemp] at hg
      simp [groupByFile] at hg
    · simp only [fix_all_vulnerabilities, if_neg hemp]
      exact runGroups_backup fs _ hpw hbt g hg c hc

/-- Witness for C5 (amended) at the concrete flask manifest. -/
theorem remediation_backup_safety_witness :
    (vFlask.fixed_version ≠ [])
    ∧ (fsReq vFlask.file = some ("flask==2.3.2\n".toList))
    ∧ (backupPathC vFlask.file ≠ vFlask.file)
    ∧ ((fix_vulnerability fsReq vFlask).1 (backupPathC vFlask.file)
          = some ("flask==2.3.2\n".toList)
       ∧ (fix_vulnerability fsReq vFlask).2.2.head?
          = some (backupPathC vFlask.file, "flask==2.3.2\n".toList)
       ∧ (fix_vulnerability fsReq vFlask).1 vFlask.file
          = some (applyFix ("flask==2.3.2\n".toList) vFlask.package
              vFlask.fixed_version vFlask.installed_version)) :=
  ⟨by decide, by decide, by decide,
   remediation_backup_safety.1 fsReq vFlask ("flask==2.3.2\n".toList)
     (by decide) (by decide) (by decide)⟩

/-- A stored fixable flask row pointing at `requirements.txt`. -/
def dbFlaskRow : List DBVuln :=
  [{ id := 1, package := "flask".toList, fixed_version := "2.3.2".toList,
     file := "requirements.txt".toList, installed_version := "2.0.1".toList }]

/-- The empty filesystem. -/
def fsEmpty : FS := fun _ => none

/-- C5 counterexample: a bulk fix whose only fixable finding names a missing
manifest file returns the success payload with an empty `files_updated` list
and `total_fixed = 0` — nothing is mutated, but no missing-file condition is
reported anywhere in the outcome. -/
theorem bulk_missing_file_unreported_cex :
    (fix_all_vulnerabilities fsEmpty dbFlaskRow).2 = BulkResult.ok 0 []
    ∧ (fix_all_vulnerabilities fsEmpty dbFlaskRow).1 = fsEmpty :=
  ⟨rfl, rfl⟩

/-- C6 (amended): in a bulk fix whose grouped target files all exist, each
group yields exactly one result entry `(file, number of fixes, backup
name)` — one backup per file — and the reported total counts every fix
whose installed version is non-empty, whether or not any line was actually
rewritten; fixes with an unknown installed version are skipped (the
single-fix fallback is not applied in bulk mode). -/
theorem bulk_fix_count_semantics (fs : FS) (db : List DBVuln)
    (hpresent : ∀ g ∈ groupByFile (fixableFilter db), (fs g.1).isSome)
    (hne : fixableFilter db ≠ []) :
    (fix_all_vulnerabilities fs db).2
      = BulkResult.ok
          ((fixableFilter db).filter fun v => !v.installed_version.isEmpty).length
          ((groupByFile (fixableFilter db)).map fun g => (g.1, g.2.length, backupPathC g.1)) := by
  simp only [fix_all_vulnerabilities, if_neg hne]
  rw [runGroups_count fs _ hpresent, groupByFile_countP, runGroups_entries fs _ hpresent]

/-- Witness for C6 (amended) at a concrete one-row database. -/
theorem bulk_fix_count_semantics_witness :
    (∀ g ∈ groupByFile (fixableFilter dbFlaskRow), (fsReq g.1).isSome)
    ∧ fixableFilter dbFlaskRow ≠ []
    ∧ (fix_all_vulnerabilities fsReq dbFlaskRow).2
        = BulkResult.ok
            ((fixableFilter dbFlaskRow).filter fun v => !v.installed_version.isEmpty).length
            ((groupByFile (fixableFilter dbFlaskRow)).map fun g =>
              (g.1, g.2.length, backupPathC g.1)) :=
  ⟨by decide, by decide,
   bulk_fix_count_semantics fsReq dbFlaskRow (by decide) (by decide)⟩

/-- The filesystem holding a manifest still pinning the vulnerable
version. -/
def fsVulnerable : FS :=
  fun p => if p = "requirements.txt".toList
           then some ("flask==2.0.1\n".toList) else none

/-- A stored fixable flask row whose recorded installed version does not
occur in the manifest. -/
def dbWrongInstalled : List DBVuln :=
  [{ id := 1, package := "flask".toList, fixed_version := "2.3.2".toList,
     file := "requirements.txt".toList, installed_version := "9.9.9".toList }]

/-- C6 counterexample: the bulk fix reports `total_fixed = 1` although the
stored pin `flask==9.9.9` occurs nowhere in the file, so zero lines are
rewritten — the manifest content is unchanged while the reported total is
1. -/
theorem bulk_count_overreports_cex :
    (fix_all_vulnerabilities fsVulnerable dbWrongInstalled).2
      = BulkResult.ok 1 [("requirements.txt".toList, 1, "requirements.txt.backup".toList)]
    ∧ (fix_all_vulnerabilities fsVulnerable dbWrongInstalled).1 "requirements.txt".toList
      = some ("flask==2.0.1\n".toList) := by
  refine ⟨by decide, by decide⟩

/-- One row of the `vulnerabilities` relation as read by `get_latest_scan`
(`SELECT id, scan_type, severity, package, vulnerability, description, file,
line, installed_version, fixed_version`). -/
structure VRow where
  id : Nat
  scan_type : String
  severity : String
  package : String
  vulnerability : String
  description : String
  file : String
  line : Option Nat
  installed_version : String
  fixed_version : String
deriving DecidableEq

/-- The dict built by the inner `count_severity` helper of
`get_latest_scan` (`dashboard/app.py` lines 49-54): exact comparisons
against the four uppercase severity strings, plus the list length. -/
structure SeverityCounts where
  critical : Nat
  high : Nat
  medium : Nat
  low : Nat
  total : Nat
deriving DecidableEq

/-- `count_severity` of `get_latest_scan`. -/
def count_severity (vuln_list : List VRow) : SeverityCounts :=
  { critical := (vuln_list.filter fun v => v.severity = "CRITICAL").length
    high := (vuln_list.filter fun v => v.severity = "HIGH").length
    medium := (vuln_list.filter fun v => v.severity = "MEDIUM").length
    low := (vuln_list.filter fun v => v.severity = "LOW").length
    total := vuln_list.length }

/-- The aggregate fields of the dict returned by `get_latest_scan`. -/
structure ScanView where
  total_vulnerabilities : Nat
  critical_count : Nat
  high_count : Nat
  medium_count : Nat
  low_count : Nat
deriving DecidableEq

/-- The aggregation of `get_latest_scan` (`dashboard/app.py` lines 44-68):
partition the scan's rows by `scan_type` into dependency and secret lists,
count severities per list, and sum the two groups' counts and totals. -/
def get_latest_scan_counts (vulns : List VRow) : ScanView :=
  let dependency_vulns := vulns.filter fun v => v.scan_type = "dependency"
  let secret_vulns := vulns.filter fun v => v.scan_type = "secret"
  let dep_counts := count_severity dependency_vulns
  let secret_counts := count_severity secret_vulns
  { total_vulnerabilities := dep_counts.total + secret_counts.total
    critical_count := dep_counts.critical + secret_counts.critical
    high_count := dep_counts.high + secret_counts.high
    medium_count := dep_counts.medium + secret_counts.medium
    low_count := dep_counts.low + secret_counts.low }

/-- Filtering a cons adds the head's indicator to the length. -/
theorem filter_cons_length {α : Type _} (p : α → Prop) [DecidablePred p]
    (a : α) (t : List α) :
    ((a :: t).filter fun x => p x).length
      = (t.filter fun x => p x).length + (if p a then 1 else 0) := by
  by_cases h : p a <;> simp [List.filter_cons, h]

/-- Rows typed `dependency` or `secret` are split exactly in two by the
partition of `get_latest_scan`. -/
theorem dep_secret_partition (l : List VRow)
    (h : ∀ v ∈ l, v.scan_type = "dependency" ∨ v.scan_type = "secret") :
    (l.filter fun v => v.scan_type = "dependency").length
      + (l.filter fun v => v.scan_type = "secret").length = l.length := by
  induction l with
  | nil => rfl
  | cons a t ih =>
    have ha := h a (List.mem_cons_self a t)
    have ht := ih fun v hv => h v (List.mem_cons_of_mem _ hv)
    rcases ha with ha | ha
    · have hns : ¬ (a.scan_type = "secret") := by rw [ha]; decide
      simp only [filter_cons_length, if_pos ha, if_neg hns, List.length_cons]
      omega
    · have hnd : ¬ (a.scan_type = "dependency") := by rw [ha]; decide
      simp only [filter_cons_length, if_pos ha, if_neg hnd, List.length_cons]
      omega

/-- The four severity buckets of one row's severity string overlap in at
most one bucket. -/
theorem sevIndicator_le_one (s : String) :
    (if s = "CRITICAL" then 1 else 0) + (if s = "HIGH" then 1 else 0)
      + (if s = "MEDIUM" then 1 else 0) + (if s = "LOW" then 1 else 0) ≤ 1 := by
  by_cases h1 : s = "CRITICAL"
  · subst h1; decide
  · by_cases h2 : s = "HIGH"
    · subst h2; decide
    · by_cases h3 : s = "MEDIUM"
      · subst h3; decide
      · by_cases h4 : s = "LOW"
        · subst h4; decide
        · simp [h1, h2, h3, h4]

/-- The sum of the four per-severity filter counts of one list. -/
def sev4 (l : List VRow) : Nat :=
  (l.filter fun v => v.severity = "CRITICAL").length
    + (l.filter fun v => v.severity = "HIGH").length
    + (l.filter fun v => v.severity = "MEDIUM").length
    + (l.filter fun v => v.severity = "LOW").length

/-- Unfolding `sev4` over a cons. -/
theorem sev4_cons (a : VRow) (t : List VRow) :
    sev4 (a :: t) = sev4 t
      + ((if a.severity = "CRITICAL" then 1 else 0)
         + (if a.severity = "HIGH" then 1 else 0)
         + (if a.severity = "MEDIUM" then 1 else 0)
         + (if a.severity = "LOW" then 1 else 0)) := by
  unfold sev4
  simp only [filter_cons_length]
  ring

/-- The four buckets never count more rows than the list holds. -/
theorem sev4_le (l : List VRow) : sev4 l ≤ l.length := by
  induction l with
  | nil => simp [sev4]
  | cons a t ih =>
    rw [sev4_cons]
    have hi := sevIndicator_le_one a.severity
    simp only [List.length_cons]
    omega

/-- A row whose severity is outside the four buckets makes the bucket sum
strictly smaller than the list length. -/
theorem sev4_lt (l : List VRow) (v : VRow) (hv : v ∈ l)
    (h1 : v.severity ≠ "CRITICAL") (h2 : v.severity ≠ "HIGH")
    (h3 : v.severity ≠ "MEDIUM") (h4 : v.severity ≠ "LOW") :
    sev4 l < l.length := by
  obtain ⟨l1, l2, rfl⟩ := List.append_of_mem hv
  have happ : sev4 (l1 ++ v :: l2) = sev4 l1 + sev4 (v :: l2) := by
    unfold sev4
    simp [List.filter_append]
    ring
  have hzero : sev4 (v :: l2) = sev4 l2 := by
    rw [sev4_cons]
    simp [h1, h2, h3, h4]
  have hl1 := sev4_le l1
  have hl2 := sev4_le l2
  rw [happ, hzero]
  simp only [List.length_append, List.length_cons]
  omega

/-- C10: in the latest-scan read, `total_vulnerabilities` equals the number
of the scan's rows (all of which carry one of the two scan types produced by
the adapters), while the four severity counts tally only rows whose severity
is exactly one of the uppercase strings CRITICAL/HIGH/MEDIUM/LOW; hence any
row with another severity value (e.g. the dependency parser's default
`UNKNOWN`, or a non-uppercased value) makes the four counts sum to strictly
less than `total_vulnerabilities`. -/
theorem latest_scan_severity_counts (vulns : List VRow)
    (hty : ∀ v ∈ vulns, v.scan_type = "dependency" ∨ v.scan_type = "secret") :
    (get_latest_scan_counts vulns).total_vulnerabilities = vulns.length
    ∧ (∀ v ∈ vulns,
        v.severity ≠ "CRITICAL" → v.severity ≠ "HIGH" →
        v.severity ≠ "MEDIUM" → v.severity ≠ "LOW" →
        (get_latest_scan_counts vulns).critical_count
          + (get_latest_scan_counts vulns).high_count
          + (get_latest_scan_counts vulns).medium_count
          + (get_latest_scan_counts vulns).low_count
          < (get_latest_scan_counts vulns).total_vulnerabilities) := by
  have htot : (get_latest_scan_counts vulns).total_vulnerabilities
      = (vulns.filter fun v => v.scan_type = "dependency").length
        + (vulns.filter fun v => v.scan_type = "secret").length := rfl
  refine ⟨htot.trans (dep_secret_partition vulns hty), ?_⟩
  intro v hv h1 h2 h3 h4
  have hsum : (get_latest_scan_counts vulns).critical_count
      + (get_latest_scan_counts vulns).high_count
      + (get_latest_scan_counts vulns).medium_count
      + (get_latest_scan_counts vulns).low_count
      = sev4 (vulns.filter fun v => v.scan_type = "dependency")
        + sev4 (vulns.filter fun v => v.scan_type = "secret") := by
    simp only [get_latest_scan_counts, count_severity, sev4]
    ring
  rw [hsum, htot]
  rcases hty v hv with hd | hd
  · have hvd : v ∈ vulns.filter fun v => v.scan_type = "dependency" :=
      List.mem_filter_of_mem hv (by simp [hd])
    have := sev4_lt _ v hvd h1 h2 h3 h4
    have := sev4_le (vulns.filter fun v => v.scan_type = "secret")
    omega
  · have hvs : v ∈ vulns.filter fun v => v.scan_type = "secret" :=
      List.mem_filter_of_mem hv (by simp [hd])
    have := sev4_lt _ v hvs h1 h2 h3 h4
    have := sev4_le (vulns.filter fun v => v.scan_type = "dependency")
    omega

/-- A dependency row whose severity is the parser default `UNKNOWN`. -/
def c10Row : VRow :=
  { id := 1, scan_type := "dependency", severity := "UNKNOWN",
    package := "flask", vulnerability := "CVE-2023-1", description := "",
    file := "requirements.txt", line := none,
    installed_version := "2.0.1", fixed_version := "2.3.2" }

/-- Witness for C10: a scan holding a single `UNKNOWN`-severity dependency
row has total 1 while the four severity counts sum to 0. -/
theorem latest_scan_severity_counts_witness :
    (∀ v ∈ [c10Row], v.scan_type = "dependency" ∨ v.scan_type = "secret")
    ∧ (c10Row ∈ [c10Row])
    ∧ (c10Row.severity ≠ "CRITICAL") ∧ (c10Row.severity ≠ "HIGH")
    ∧ (c10Row.severity ≠ "MEDIUM") ∧ (c10Row.severity ≠ "LOW")
    ∧ (get_latest_scan_counts [c10Row]).total_vulnerabilities = [c10Row].length
    ∧ ((get_latest_scan_counts [c10Row]).critical_count
        + (get_latest_scan_counts [c10Row]).high_count
        + (get_latest_scan_counts [c10Row]).medium_count
        + (get_latest_scan_counts [c10Row]).low_count
        < (get_latest_scan_counts [c10Row]).total_vulnerabilities) :=
  ⟨by decide, by decide, by decide, by decide, by decide, by decide,
   (latest_scan_severity_counts [c10Row] (by decide)).1,
   (latest_scan_severity_counts [c10Row] (by decide)).2 c10Row (by decide)
     (by decide) (by decide) (by decide) (by decide)⟩
